import Mathlib

/-!
Shallow embedding of the command-line option manager in `src/main.ts`
(class `CommandLineOptions` and its helpers), together with proofs about
its registration, locking, bare-argument collection, value coercion and
help-file parsing behaviour.

Conventions of the embedding:
* JS `undefined` on an optional config field is `Option.none`; a field that
  is present (even with a falsy value such as `""` or `false`) is `some _`.
* Machine numbers produced by `parseFloat` are modelled as `JSNum`:
  either `nan` or an exact rational (all inputs reaching `parseFloat` in
  this program are decimal digit/dot strings, so no binary rounding is
  involved at the precision the claims mention).
* The external tokenizer (`parse` from deno std flags) is a boundary, as the
  specification declares: its output is passed in as an association list
  `parsed : List (String × RawValue)` (JS object, insertion ordered), and its
  side-invocations of the `unknown` callback are passed in as the list
  `unknownEvents : List UnknownEvent` in argv order.
* `Deno.exit(1)` after `logger.error` is modelled as `Except.error` carrying
  a `Fatal` value that records which message was produced and with which
  computed payload.  `logger.warn` (non-fatal, no state change, lines
  338-346 of main.ts) is not modelled.
-/

namespace CLArgs

/-- A JavaScript number as produced by `parseFloat`: `NaN` or a rational. -/
inductive JSNum where
  | nan
  | val (q : ℚ)
deriving DecidableEq

/-- Raw value coming out of the tokenizer for one option:
`string | boolean | string[] | undefined`. -/
inductive RawValue where
  | str (s : String)
  | bool (b : Bool)
  | arr (xs : List String)
  | undefined
deriving DecidableEq

/-- A typed value as assembled in `values` by `#getArgValues`
(lines 275-303 of main.ts). -/
inductive Value where
  | str (s : String)
  | bool (b : Bool)
  | strList (xs : List String)
  | undefined
  | num (n : JSNum)
  | numList (ns : List (Option JSNum))
  | url (u : String)
  | urlList (us : List String)
deriving DecidableEq

/-- `OptionType` of main.ts: `"string" | "boolean" | "number" | "URL"`. -/
inductive OptionType where
  | string
  | boolean
  | number
  | URL
deriving DecidableEq

/-- `OptionConfig` of main.ts.  Every field is optional in the source type;
`none` is a field that is absent / `undefined`. -/
structure OptionConfig where
  description : Option String := none
  type : Option OptionType := none
  placeholder : Option String := none
  defaultValue : Option Value := none
  aliases : Option (List String) := none
  multiple : Option Bool := none
  required : Option Bool := none
  allowEmptyString : Option Bool := none
  collectNotPrefixedArgs : Option Bool := none
  overload : Option Bool := none
deriving DecidableEq

/-- `#optionConfigs : Record<string, OptionConfig|undefined>` (line 107):
a JS object in insertion order, values may be a stored `undefined`. -/
abbrev OptionConfigs := List (String × Option OptionConfig)

/-- Property read `obj[name]` on the record: `none` when the key is absent. -/
def lookupConfig (reg : OptionConfigs) (name : String) : Option (Option OptionConfig) :=
  match reg with
  | [] => none
  | (k, c) :: rest => if k = name then some c else lookupConfig rest name

/-- Property write `obj[name] = c`: overwrite in place, append when new
(JS object key order). -/
def setConfig (reg : OptionConfigs) (name : String) (c : Option OptionConfig) : OptionConfigs :=
  match reg with
  | [] => [(name, c)]
  | (k, c0) :: rest => if k = name then (k, c) :: rest else (k, c0) :: setConfig rest name c

/-- Field-wise merge step of `#registerOption` (lines 352-356): a field of
the existing config is only filled from the incoming config when it is
still `undefined`; it is never overwritten. -/
def mergeField {α : Type} (existing incoming : Option α) : Option α :=
  match existing with
  | some v => some v
  | none => incoming

/-- The loop of lines 352-356 applied to every `OptionConfig` field. -/
def mergeConfig (existing incoming : OptionConfig) : OptionConfig where
  description := mergeField existing.description incoming.description
  type := mergeField existing.type incoming.type
  placeholder := mergeField existing.placeholder incoming.placeholder
  defaultValue := mergeField existing.defaultValue incoming.defaultValue
  aliases := mergeField existing.aliases incoming.aliases
  multiple := mergeField existing.multiple incoming.multiple
  required := mergeField existing.required incoming.required
  allowEmptyString := mergeField existing.allowEmptyString incoming.allowEmptyString
  collectNotPrefixedArgs := mergeField existing.collectNotPrefixedArgs incoming.collectNotPrefixedArgs
  overload := mergeField existing.overload incoming.overload

/-- The storage part of `#registerOption` (lines 348-357): a first
registration (absent key, or a stored falsy `undefined`) stores the config
as given; a later registration with a real config merges field-wise; a
later registration with `undefined` is a no-op. -/
def registerOptionStore (reg : OptionConfigs) (name : String) (config : Option OptionConfig) : OptionConfigs :=
  match lookupConfig reg name with
  | none => setConfig reg name config
  | some none => setConfig reg name config
  | some (some existing) =>
      match config with
      | some c => setConfig reg name (some (mergeConfig existing c))
      | none => reg

/-- One `CommandLineOptions` instance: its context name and its
`#optionConfigs` record. -/
structure Context where
  contextName : String
  optionConfigs : OptionConfigs
deriving DecidableEq

/-- The process-wide static state of the class: `#contexts` (insertion
ordered), `#globalLockContext` and `#lockedCommands` (lines 100-103). -/
structure GlobalState where
  contexts : List Context
  globalLockContext : Option String
  lockedCommands : List (String × String)
deriving DecidableEq

/-- Read the `#optionConfigs` of the named context (empty when unknown). -/
def contextsRegistry (ctxs : List Context) (ctxName : String) : OptionConfigs :=
  match ctxs with
  | [] => []
  | c :: rest => if c.contextName = ctxName then c.optionConfigs else contextsRegistry rest ctxName

def contextRegistry (st : GlobalState) (ctxName : String) : OptionConfigs :=
  contextsRegistry st.contexts ctxName

/-- Replace the named context registry (creating the context when absent,
as the constructor would have). -/
def updateContexts (ctxs : List Context) (ctxName : String) (reg : OptionConfigs) : List Context :=
  match ctxs with
  | [] => [⟨ctxName, reg⟩]
  | c :: rest =>
      if c.contextName = ctxName then ⟨ctxName, reg⟩ :: rest
      else c :: updateContexts rest ctxName reg

/-- `#lockedCommands.get(name)` (line 164). -/
def lookupLocked (locks : List (String × String)) (name : String) : Option String :=
  match locks with
  | [] => none
  | (k, v) :: rest => if k = name then some v else lookupLocked rest name

def setLocked (locks : List (String × String)) (name ctxName : String) : List (String × String) :=
  match locks with
  | [] => [(name, ctxName)]
  | (k, v) :: rest => if k = name then (k, ctxName) :: rest else (k, v) :: setLocked rest name ctxName

/-- The fatal error/exit paths of main.ts (`logger.error` + `Deno.exit(1)`),
tagged with the computed message payloads. -/
inductive Fatal where
  /-- lines 332-335: registration after `#globalLockContext` was set -/
  | optionsLocked (ctxName lockCtxName : String)
  /-- lines 164-167: extending a command in `#lockedCommands` -/
  | commandLocked (ctxName cmdName lockCtxName : String)
  /-- lines 215-218: two options flagged `collectNotPrefixedArgs` -/
  | multipleCollectors (argName otherArgName : String)
  /-- lines 249-252: a second bare argument for a non-`multiple` collector -/
  | tooManyCollected (argName : String)
  /-- lines 255-258: strict mode, unknown token -/
  | invalidOption (arg : String) (command : Option String)
  /-- lines 281-285: required option missing -/
  | missingOption (args : List String)
  /-- lines 287-290: disallowed empty string -/
  | emptyValue (argName : String)
  /-- lines 308-311: value does not match the number pattern -/
  | notANumber (argName : String)
  /-- a JS runtime TypeError (property access on `undefined`) -/
  | jsTypeError
deriving DecidableEq

/-- `#registerOption` (lines 330-361) at the state level: fatal when the
global lock is set, otherwise the store update on the calling context.
The duplicate-name warnings (lines 338-346) only log and change nothing. -/
def registerOption (st : GlobalState) (ctxName name : String) (config : Option OptionConfig) :
    Except Fatal GlobalState :=
  match st.globalLockContext with
  | some lockCtx => .error (.optionsLocked ctxName lockCtx)
  | none =>
      .ok { st with
              contexts := updateContexts st.contexts ctxName
                (registerOptionStore (contextRegistry st ctxName) name config) }

/-- The registration loop shared by `options` (lines 143-146) and
`command` (lines 171-174): `Object.entries` order is list order. -/
def registerBatch (st : GlobalState) (ctxName : String) : OptionConfigs → Except Fatal GlobalState
  | [] => .ok st
  | (name, config) :: rest =>
      match registerOption st ctxName name config with
      | .error e => .error e
      | .ok st2 => registerBatch st2 ctxName rest

/-- The registration and locking part of the `options` method
(lines 140-151): register the batch, then set `#globalLockContext` when
`allowOtherOptions` is false.  (The value resolution it then performs is
`getArgValues` below.) -/
def optionsDeclare (st : GlobalState) (ctxName : String) (opts : OptionConfigs)
    (allowOtherOptions : Bool) : Except Fatal GlobalState :=
  match registerBatch st ctxName opts with
  | .error e => .error e
  | .ok st2 =>
      .ok (if allowOtherOptions then st2
           else { st2 with globalLockContext := some ctxName })

/-- The registration and locking part of the `command` method
(lines 163-179): fatal when the command is already locked, then the same
batch registration, then lock the command when
`allowOtherOptionsForCommand` is false. -/
def commandDeclare (st : GlobalState) (ctxName name : String) (opts : OptionConfigs)
    (allowOtherOptionsForCommand : Bool) : Except Fatal GlobalState :=
  match lookupLocked st.lockedCommands name with
  | some lockCtx => .error (.commandLocked ctxName name lockCtx)
  | none =>
      match registerBatch st ctxName opts with
      | .error e => .error e
      | .ok st2 =>
          .ok (if allowOtherOptionsForCommand then st2
               else { st2 with lockedCommands := setLocked st2.lockedCommands name ctxName })

/-- `#formatArgName` (lines 404-406). -/
def formatArgName (name : String) : String :=
  (if name.length = 1 then "-" else "--") ++ name

/-- The `config?.aliases ?? []` read used by `#getAliases`. -/
def configAliases (reg : OptionConfigs) (name : String) : List String :=
  (((lookupConfig reg name).join).bind (fun c => c.aliases)).getD []

/-- `#getAliases` (lines 391-397): the declared aliases (in order) followed
by the primary name, each formatted unless `formatted` is false. -/
def getAliases (reg : OptionConfigs) (name : String) (formatted : Bool) : List String :=
  ((configAliases reg name).map (fun a => if formatted then formatArgName a else a)) ++
    [if formatted then formatArgName name else name]

/-- First element of `Object.keys(parsed)` that is one of the candidates. -/
def firstKeyAmong (keys candidates : List String) : Option String :=
  match keys with
  | [] => none
  | k :: rest => if candidates.contains k then some k else firstKeyAmong rest candidates

/-- `#getUsedCommandLineArgAlias` (lines 321-328): the first parsed key that
is an alias or the primary name of the option; otherwise
`nameCandidates[0]` (the first declared alias when any exist, else the
primary name). -/
def getUsedCommandLineArgAlias (reg : OptionConfigs) (parsedKeys : List String) (name : String) :
    String :=
  let nameCandidates := getAliases reg name false
  match firstKeyAmong parsedKeys nameCandidates with
  | some k => k
  | none => nameCandidates.headI

/-- A character accepted by the regex character class `[\d.]`. -/
def isDigitOrDot (c : Char) : Bool := c.isDigit || c = '.'

/-- The test `String(val).match(/^[\d.]+$/)` of line 308: one or more
characters, all digits or dots. -/
def matchesNumberPattern (s : String) : Bool :=
  !s.data.isEmpty && s.data.all isDigitOrDot

/-- Decimal value of a digit sequence. -/
def digitsVal (cs : List Char) : ℕ :=
  cs.foldl (fun acc c => acc * 10 + (c.toNat - 48)) 0

/-- `parseFloat` (line 312) on its actual inputs here: strings that already
matched `^[\d.]+$`.  On those, `parseFloat` reads a maximal prefix
`digits [ '.' digits ]`; a string with no digit before a second dot region
is read up to the first fraction; a string with no leading digit and no
digit after the first dot (for example `"..."` or `"."`) yields `NaN`. -/
def parseFloatDigitsDots (s : String) : JSNum :=
  let cs := s.data
  let intPart := cs.takeWhile Char.isDigit
  let rest := cs.drop intPart.length
  match rest with
  | '.' :: rest2 =>
      let fracPart := rest2.takeWhile Char.isDigit
      if intPart.isEmpty && fracPart.isEmpty then .nan
      else .val ((digitsVal intPart : ℚ) + (digitsVal fracPart : ℚ) / (10 : ℚ) ^ fracPart.length)
  | _ => if intPart.isEmpty then .nan else .val (digitsVal intPart)

/-- `String(val)` for the raw values that can reach `#validateNumber`. -/
def rawToStringJS : RawValue → String
  | .str s => s
  | .bool b => if b then "true" else "false"
  | .arr xs => String.intercalate "," xs
  | .undefined => "undefined"

/-- `#validateNumber` (lines 306-313): `undefined` passes through; a value
failing `^[\d.]+$` is fatal, reported under the alias computed by
`#getUsedCommandLineArgAlias`; otherwise the `parseFloat` of the value.
`some n` is a JS number (possibly `NaN`), `none` is `undefined`. -/
def validateNumber (val : RawValue) (parsedKeys : List String) (name : String)
    (reg : OptionConfigs) : Except Fatal (Option JSNum) :=
  match val with
  | .undefined => .ok none
  | v =>
      if matchesNumberPattern (rawToStringJS v) then
        .ok (some (parseFloatDigitsDots (rawToStringJS v)))
      else
        .error (.notANumber (formatArgName (getUsedCommandLineArgAlias reg parsedKeys name)))

/-- The element-wise `map` of `#validateNumber` over a raw string array
(line 293). -/
def validateNumbers (xs : List String) (parsedKeys : List String) (name : String)
    (reg : OptionConfigs) : Except Fatal (List (Option JSNum)) :=
  match xs with
  | [] => .ok []
  | x :: rest =>
      match validateNumber (.str x) parsedKeys name reg with
      | .error e => .error e
      | .ok n =>
          match validateNumbers rest parsedKeys name reg with
          | .error e => .error e
          | .ok ns => .ok (n :: ns)

/-- `#validateURL` (lines 315-318): `undefined` passes through, otherwise
the value resolves to a URL.  The resolution of the string against
`file://` + the process working directory is an environment boundary; the
embedding keeps the input string. -/
def validateURL (val : RawValue) : Option String :=
  match val with
  | .undefined => none
  | v => some (rawToStringJS v)

/-- JS truthiness of a raw value (`!val` negated). -/
def rawTruthy : RawValue → Bool
  | .str s => !s.isEmpty
  | .bool b => b
  | .arr _ => true
  | .undefined => false

/-- Truthiness of `(<any>val).length`.  Reading `.length` on `undefined`
is a runtime TypeError; on a boolean it is `undefined`, hence falsy. -/
def rawLengthTruthy : RawValue → Except Fatal Bool
  | .str s => .ok !s.isEmpty
  | .arr xs => .ok !xs.isEmpty
  | .bool _ => .ok false
  | .undefined => .error .jsTypeError

/-- The missing-value test of line 281:
`(!isMultiple && val == undefined) || (isMultiple && !val.length)`,
with JS short-circuit evaluation. -/
def requiredMissingCond (isMultiple : Bool) (val : RawValue) : Except Fatal Bool :=
  if isMultiple then
    match rawLengthTruthy val with
    | .error e => .error e
    | .ok lt => .ok !lt
  else .ok (decide (val = RawValue.undefined))

/-- The emptiness test of line 287: `(!val || !(<any>val).length)` with JS
short-circuit evaluation (a falsy `val` never reaches `.length`). -/
def emptyStringCond (val : RawValue) : Except Fatal Bool :=
  if rawTruthy val then
    match rawLengthTruthy val with
    | .error e => .error e
    | .ok lt => .ok !lt
  else .ok true

/-- `parsed` object keys, in insertion order. -/
def rawKeys (parsed : List (String × RawValue)) : List String :=
  parsed.map (fun p => p.1)

def lookupRaw (parsed : List (String × RawValue)) (name : String) : Option RawValue :=
  match parsed with
  | [] => none
  | (k, v) :: rest => if k = name then some v else lookupRaw rest name

def setRaw (parsed : List (String × RawValue)) (name : String) (v : RawValue) :
    List (String × RawValue) :=
  match parsed with
  | [] => [(name, v)]
  | (k, v0) :: rest => if k = name then (k, v) :: rest else (k, v0) :: setRaw rest name v

/-- Raw value passed through unchanged by the final `else` of line 300. -/
def rawToValue : RawValue → Value
  | .str s => .str s
  | .bool b => .bool b
  | .arr xs => .strList xs
  | .undefined => .undefined

/-- The per-option body of the loop in `#getArgValues` (lines 277-301):
required check, then the `string`-with-`allowEmptyString:false` emptiness
check / `number` coercion / `URL` coercion / raw passthrough chain.
`reg` is the calling context registry (`this.#optionConfigs`), read by the
alias computations of the error messages. -/
def coerceOption (reg : OptionConfigs) (parsed : List (String × RawValue))
    (name : String) (config : Option OptionConfig) : Except Fatal Value :=
  let val := (lookupRaw parsed name).getD .undefined
  let isMultiple := (config.bind (fun c => c.multiple)).getD false
  let parsedKeys := rawKeys parsed
  let requiredStep : Except Fatal Unit :=
    if (config.bind (fun c => c.required)).getD false then
      match requiredMissingCond isMultiple val with
      | .error e => .error e
      | .ok true => .error (.missingOption (getAliases reg name true))
      | .ok false => .ok ()
    else .ok ()
  match requiredStep with
  | .error e => .error e
  | .ok () =>
      if config.bind (fun c => c.type) = some OptionType.string ∧
         config.bind (fun c => c.allowEmptyString) = some false then
        match emptyStringCond val with
        | .error e => .error e
        | .ok true =>
            .error (.emptyValue (formatArgName (getUsedCommandLineArgAlias reg parsedKeys name)))
        | .ok false => .ok (rawToValue val)
      else if config.bind (fun c => c.type) = some OptionType.number then
        if isMultiple then
          match val with
          | .arr xs =>
              match validateNumbers xs parsedKeys name reg with
              | .error e => .error e
              | .ok ns => .ok (.numList ns)
          | _ => .error .jsTypeError
        else
          match validateNumber val parsedKeys name reg with
          | .error e => .error e
          | .ok (some n) => .ok (.num n)
          | .ok none => .ok .undefined
      else if config.bind (fun c => c.type) = some OptionType.URL then
        if isMultiple then
          match val with
          | .arr xs => .ok (.urlList xs)
          | _ => .error .jsTypeError
        else
          match validateURL val with
          | some u => .ok (.url u)
          | none => .ok .undefined
      else .ok (rawToValue val)

/-- The loop of lines 277-301 over all configured options. -/
def coerceAll (reg : OptionConfigs) (parsed : List (String × RawValue)) :
    OptionConfigs → Except Fatal (List (String × Value))
  | [] => .ok []
  | (name, config) :: rest =>
      match coerceOption reg parsed name config with
      | .error e => .error e
      | .ok v =>
          match coerceAll reg parsed rest with
          | .error e => .error e
          | .ok vs => .ok ((name, v) :: vs)

/-- `#getCollectorArgForNotPrefixedArgs` (lines 211-223): the unique option
flagged `collectNotPrefixedArgs`; two such options are a fatal
configuration error. -/
def getCollectorArgAux (options : OptionConfigs) (acc : Option String) :
    Except Fatal (Option String) :=
  match options with
  | [] => .ok acc
  | (name, config) :: rest =>
      if (config.bind (fun c => c.collectNotPrefixedArgs)).getD false then
        match acc with
        | some prev => .error (.multipleCollectors (formatArgName name) (formatArgName prev))
        | none => getCollectorArgAux rest (some name)
      else getCollectorArgAux rest acc

def getCollectorArg (options : OptionConfigs) : Except Fatal (Option String) :=
  getCollectorArgAux options none

/-- `options?.[notPrefixedArgsCollector]?.multiple`, truthy. -/
def collectorMultipleOf (options : OptionConfigs) (collector : Option String) : Bool :=
  (((collector.bind (fun c => (lookupConfig options c).join)).bind
      (fun c => c.multiple)).getD false)

/-- One invocation `(arg, key?)` of the tokenizer `unknown` callback, in
argv order.  `key` is present when the unknown token looked like an
option (`--key`), absent for a bare token. -/
structure UnknownEvent where
  arg : String
  key : Option String
deriving DecidableEq

/-- Mutable state of the `unknown` callback (lines 227-234): `isFirst`,
`valid` and the `collected` buffer. -/
structure UnknownState where
  isFirst : Bool
  valid : Bool
  collected : List String
deriving DecidableEq

/-- The part of the callback after the first-token command check
(lines 247-260): route a bare token to the collector (fatal when a second
value hits a non-`multiple` collector), otherwise fatal in strict mode. -/
def processEventCommon (command collector : Option String)
    (collectorMultiple throwOnInvalid : Bool) (st : UnknownState) (e : UnknownEvent) :
    Except Fatal UnknownState :=
  if collector.isSome && e.key.isNone then
    if !collectorMultiple && !st.collected.isEmpty then
      .error (.tooManyCollected (formatArgName (collector.getD "")))
    else .ok { st with isFirst := false, collected := st.collected ++ [e.arg] }
  else if throwOnInvalid then .error (.invalidOption e.arg command)
  else .ok { st with isFirst := false }

/-- The `def.unknown` callback of lines 235-261 for one token.  When a
command is expected, the very first unknown token only updates `valid`:
it must be bare and equal to the command name. -/
def processEvent (command collector : Option String)
    (collectorMultiple throwOnInvalid : Bool) (st : UnknownState) (e : UnknownEvent) :
    Except Fatal UnknownState :=
  match command with
  | some cmd =>
      if st.isFirst then
        let validAfterKey := if e.key.isSome then false else st.valid
        let validAfterCmd := if e.key.isNone && e.arg ≠ cmd then false else validAfterKey
        .ok { st with isFirst := false, valid := validAfterCmd }
      else processEventCommon command collector collectorMultiple throwOnInvalid st e
  | none => processEventCommon command collector collectorMultiple throwOnInvalid st e

/-- The callback over the whole argv-ordered unknown-token sequence. -/
def processEvents (command collector : Option String)
    (collectorMultiple throwOnInvalid : Bool) :
    UnknownState → List UnknownEvent → Except Fatal UnknownState
  | st, [] => .ok st
  | st, e :: rest =>
      match processEvent command collector collectorMultiple throwOnInvalid st e with
      | .error err => .error err
      | .ok st2 => processEvents command collector collectorMultiple throwOnInvalid st2 rest

/-- Lines 266-271: merge the collected bare tokens into the parsed record,
appending to an array value, else storing the first collected token. -/
def mergeCollected (parsed : List (String × RawValue)) (collector : Option String)
    (collected : List String) : List (String × RawValue) :=
  match collector with
  | none => parsed
  | some c =>
      match lookupRaw parsed c with
      | some (.arr xs) => setRaw parsed c (.arr (xs ++ collected))
      | _ => if !collected.isEmpty then setRaw parsed c (.str collected.headI) else parsed

/-- `#getArgValues` (lines 225-304).  The tokenizer (deno std `parse`) is
the external boundary: `parsed` is its result record and `unknownEvents`
its `unknown`-callback invocations in argv order (only consulted when the
callback is installed, line 233).  Outcome `.ok none` is the `null` return
of line 273 (command not invoked); `.ok (some values)` is the assembled
value record; `.error` is a fatal report-and-exit. -/
def getArgValues (reg : OptionConfigs) (options : OptionConfigs) (command : Option String)
    (throwOnInvalid : Bool) (parsed : List (String × RawValue))
    (unknownEvents : List UnknownEvent) : Except Fatal (Option (List (String × Value))) :=
  match getCollectorArg options with
  | .error e => .error e
  | .ok collector =>
      let collectorMultiple := collectorMultipleOf options collector
      let installCallback := command.isSome || throwOnInvalid || collector.isSome
      let stResult :=
        if installCallback then
          processEvents command collector collectorMultiple throwOnInvalid
            ⟨true, true, []⟩ unknownEvents
        else .ok ⟨true, true, []⟩
      match stResult with
      | .error e => .error e
      | .ok finalState =>
          let parsed2 := mergeCollected parsed collector finalState.collected
          if !finalState.valid then .ok none
          else
            match coerceAll reg parsed2 options with
            | .error e => .error e
            | .ok values => .ok (some values)

/-- A whitespace character for JS `trim()`. -/
def wsChar (c : Char) : Bool := c = ' ' || c = '\t' || c = '\n' || c = '\r'

/-- JS `trim()` at the character-list level. -/
def trimChars (cs : List Char) : List Char :=
  ((cs.dropWhile wsChar).reverse.dropWhile wsChar).reverse

/-- `startsWith` between strings. -/
def strStartsWith (s pre : String) : Bool := List.isPrefixOf pre.data s.data

/-- The backtick character (0x60). -/
def backtickChar : Char := '\x60'

/-- Split a character list at the first occurrence of `c` (the occurrence
is dropped); `none` when `c` does not occur. -/
def splitAtFirst (c : Char) : List Char → Option (List Char × List Char)
  | [] => none
  | x :: xs =>
      if x = c then some ([], xs)
      else (splitAtFirst c xs).map (fun p => (x :: p.1, p.2))

/-- JS `split` with a single-character separator (`"".split` gives `[""]`). -/
def splitOnChar (sep : Char) : List Char → List (List Char)
  | [] => [[]]
  | c :: cs =>
      if c = sep then [] :: splitOnChar sep cs
      else
        match splitOnChar sep cs with
        | [] => [[c]]
        | g :: gs => (c :: g) :: gs

/-- The regex match `/\x60(.*)\x60 *(.*$)/` of line 541 on a single-line
part: group 1 is everything between the first and the last backtick,
group 2 is the remainder after the last backtick with the separating
spaces dropped; no match without two backticks. -/
def matchEntryLine (part : String) : Option (String × String) :=
  match splitAtFirst backtickChar part.data with
  | none => none
  | some (_, afterFirst) =>
      match splitAtFirst backtickChar afterFirst.reverse with
      | none => none
      | some (revAfterLast, revInside) =>
          some (⟨revInside.reverse⟩, ⟨revAfterLast.reverse.dropWhile (fun c => c = ' ')⟩)

/-- Per alias token (lines 545-549): `a.trim().split(" ")`; a truthy second
word becomes the placeholder; the first word with leading dashes stripped
is the alias/name. -/
def parseAliasToken (ph : Option String) (tok : List Char) : Option String × String :=
  let parts := splitOnChar ' ' (trimChars tok)
  let second := (parts.drop 1).headD []
  let ph2 := if second.isEmpty then ph else some ⟨second⟩
  (ph2, ⟨(parts.headD []).dropWhile (fun c => c = '-')⟩)

/-- The `.map` over the comma-separated alias tokens, threading the
placeholder assignment (a later truthy second word wins). -/
def parseAliasTokens : Option String → List (List Char) → Option String × List String
  | ph, [] => (ph, [])
  | ph, t :: ts =>
      let p1 := parseAliasToken ph t
      let p2 := parseAliasTokens p1.1 ts
      (p2.1, p1.2 :: p2.2)

/-- One parsed help-file list entry: the last alias token is the primary
name, the earlier tokens are the aliases (lines 550-553). -/
structure HelpEntry where
  name : String
  aliases : List String
  placeholder : Option String
  description : String
deriving DecidableEq

/-- The per-line entry parsing of `parseHelpMarkdownFile` (lines 539-552):
skip lines whose trimmed text does not start with `*`, match the backtick
pattern, split the alias list, pop the last token as the primary name
(skipping the line when it is empty). -/
def parseHelpLine (part : String) : Option HelpEntry :=
  if !List.isPrefixOf ['*'] (trimChars part.data) then none
  else
    match matchEntryLine part with
    | none => none
    | some (inside, description) =>
        let aliasResult := parseAliasTokens none (splitOnChar ',' inside.data)
        match aliasResult.2.getLast? with
        | none => none
        | some lastName =>
            if lastName.isEmpty then none
            else some ⟨lastName, aliasResult.2.dropLast, aliasResult.1, description⟩

/-- The `OptionConfig` literal `{aliases, required, placeholder, description}`
registered for a parsed entry (line 553): exactly these fields present. -/
def entryConfig (required : Bool) (e : HelpEntry) : OptionConfig :=
  { description := some e.description
    placeholder := e.placeholder
    aliases := some e.aliases
    required := some required }

/-- The section-body loop of `parseHelpMarkdownFile` (lines 527-554): a
`### Required` part switches the flag to true, `### Optional` to false,
other parts are parsed as entries (ignored when malformed) and registered
through `#registerOption` with the current flag. -/
def parseSectionParts (ctxName : String) :
    GlobalState → Bool → List String → Except Fatal GlobalState
  | st, _, [] => .ok st
  | st, required, part :: rest =>
      if strStartsWith part "### Required" then parseSectionParts ctxName st true rest
      else if strStartsWith part "### Optional" then parseSectionParts ctxName st false rest
      else
        match parseHelpLine part with
        | none => parseSectionParts ctxName st required rest
        | some e =>
            match registerOption st ctxName e.name (some (entryConfig required e)) with
            | .error err => .error err
            | .ok st2 => parseSectionParts ctxName st2 required rest

/-- A section body processed from the initial flag state of line 527:
`let required = false`. -/
def parseSection (st : GlobalState) (ctxName : String) (parts : List String) :
    Except Fatal GlobalState :=
  parseSectionParts ctxName st false parts

/-- The bare (non-keyed) unknown tokens of an event sequence, in order. -/
def bareArgs (events : List UnknownEvent) : List String :=
  (events.filter (fun e => e.key.isNone)).map (fun e => e.arg)

/-- Field-set disjointness of two configs: no field is present in both. -/
def FieldsDisjoint (c1 c2 : OptionConfig) : Prop :=
  (c1.description = none ∨ c2.description = none) ∧
  (c1.type = none ∨ c2.type = none) ∧
  (c1.placeholder = none ∨ c2.placeholder = none) ∧
  (c1.defaultValue = none ∨ c2.defaultValue = none) ∧
  (c1.aliases = none ∨ c2.aliases = none) ∧
  (c1.multiple = none ∨ c2.multiple = none) ∧
  (c1.required = none ∨ c2.required = none) ∧
  (c1.allowEmptyString = none ∨ c2.allowEmptyString = none) ∧
  (c1.collectNotPrefixedArgs = none ∨ c2.collectNotPrefixedArgs = none) ∧
  (c1.overload = none ∨ c2.overload = none)

/-- Every field present in `earlier` keeps its value in `stored`. -/
def NoOverwrite (earlier stored : OptionConfig) : Prop :=
  (∀ v, earlier.description = some v → stored.description = some v) ∧
  (∀ v, earlier.type = some v → stored.type = some v) ∧
  (∀ v, earlier.placeholder = some v → stored.placeholder = some v) ∧
  (∀ v, earlier.defaultValue = some v → stored.defaultValue = some v) ∧
  (∀ v, earlier.aliases = some v → stored.aliases = some v) ∧
  (∀ v, earlier.multiple = some v → stored.multiple = some v) ∧
  (∀ v, earlier.required = some v → stored.required = some v) ∧
  (∀ v, earlier.allowEmptyString = some v → stored.allowEmptyString = some v) ∧
  (∀ v, earlier.collectNotPrefixedArgs = some v → stored.collectNotPrefixedArgs = some v) ∧
  (∀ v, earlier.overload = some v → stored.overload = some v)

/-- `stored` holds exactly the union of the fields of `c1` and `c2`:
each present field of either survives, absent-in-both fields stay absent. -/
def UnionOfFields (c1 c2 stored : OptionConfig) : Prop :=
  NoOverwrite c1 stored ∧ NoOverwrite c2 stored ∧
  (c1.description = none → c2.description = none → stored.description = none) ∧
  (c1.type = none → c2.type = none → stored.type = none) ∧
  (c1.placeholder = none → c2.placeholder = none → stored.placeholder = none) ∧
  (c1.defaultValue = none → c2.defaultValue = none → stored.defaultValue = none) ∧
  (c1.aliases = none → c2.aliases = none → stored.aliases = none) ∧
  (c1.multiple = none → c2.multiple = none → stored.multiple = none) ∧
  (c1.required = none → c2.required = none → stored.required = none) ∧
  (c1.allowEmptyString = none → c2.allowEmptyString = none → stored.allowEmptyString = none) ∧
  (c1.collectNotPrefixedArgs = none → c2.collectNotPrefixedArgs = none →
    stored.collectNotPrefixedArgs = none) ∧
  (c1.overload = none → c2.overload = none → stored.overload = none)

/-- Equality of modelled call outcomes is decidable (used to evaluate the
embedding at concrete inputs). -/
instance {ε α : Type} [DecidableEq ε] [DecidableEq α] : DecidableEq (Except ε α) := fun a b =>
  match a, b with
  | .error e1, .error e2 =>
      if h : e1 = e2 then .isTrue (by rw [h]) else .isFalse (fun hc => h (Except.error.inj hc))
  | .ok v1, .ok v2 =>
      if h : v1 = v2 then .isTrue (by rw [h]) else .isFalse (fun hc => h (Except.ok.inj hc))
  | .error _, .ok _ => .isFalse (fun hc => Except.noConfusion hc)
  | .ok _, .error _ => .isFalse (fun hc => Except.noConfusion hc)

/-- The `time` option of the README example (`type:"string", required:true`). -/
def timeConfig : OptionConfig :=
  { description := some "The time at your destination", type := some OptionType.string,
    required := some true }

/-- The options record `{time: timeConfig}`. -/
def timeOptions : OptionConfigs := [("time", some timeConfig)]

/-- The context registry after registering the `time` option. -/
def timeReg : OptionConfigs := registerOptionStore [] "time" (some timeConfig)

/-! ### Helper lemmas -/

theorem lookupConfig_setConfig (reg : OptionConfigs) (name : String) (c : Option OptionConfig) :
    lookupConfig (setConfig reg name c) name = some c := by
  induction reg with
  | nil => simp [setConfig, lookupConfig]
  | cons p rest ih =>
      by_cases h : p.1 = name
      · simp [setConfig, lookupConfig, h]
      · simp [setConfig, lookupConfig, h, ih]

theorem contextsRegistry_updateContexts (ctxs : List Context) (ctxName : String)
    (reg : OptionConfigs) :
    contextsRegistry (updateContexts ctxs ctxName reg) ctxName = reg := by
  induction ctxs with
  | nil => simp [updateContexts, contextsRegistry]
  | cons c rest ih =>
      by_cases h : c.contextName = ctxName
      · simp [updateContexts, contextsRegistry, h]
      · simp [updateContexts, contextsRegistry, h, ih]

theorem lookupRaw_setRaw (parsed : List (String × RawValue)) (name : String) (v : RawValue) :
    lookupRaw (setRaw parsed name v) name = some v := by
  induction parsed with
  | nil => simp [setRaw, lookupRaw]
  | cons p rest ih =>
      by_cases h : p.1 = name
      · simp [setRaw, lookupRaw, h]
      · simp [setRaw, lookupRaw, h, ih]

theorem processEventCommon_ok_valid (command collector : Option String) (cm t : Bool)
    (st st2 : UnknownState) (e : UnknownEvent)
    (h : processEventCommon command collector cm t st e = .ok st2) :
    st2.valid = st.valid := by
  unfold processEventCommon at h
  split at h
  · split at h
    · exact absurd h (by simp)
    · simp only [Except.ok.injEq] at h
      rw [← h]
  · split at h
    · exact absurd h (by simp)
    · simp only [Except.ok.injEq] at h
      rw [← h]

theorem processEvent_ok_valid_false (command collector : Option String) (cm t : Bool)
    (st st2 : UnknownState) (e : UnknownEvent)
    (h : processEvent command collector cm t st e = .ok st2) (hv : st.valid = false) :
    st2.valid = false := by
  unfold processEvent at h
  cases command with
  | none => rw [processEventCommon_ok_valid _ _ _ _ _ _ _ h, hv]
  | some cmd =>
      by_cases hf : st.isFirst
      · simp only [hf, if_true] at h
        simp only [Except.ok.injEq] at h
        rw [← h]
        simp [hv]
      · simp only [hf, if_false] at h
        rw [processEventCommon_ok_valid _ _ _ _ _ _ _ h, hv]

theorem processEvents_cons_ok {command collector : Option String} {cm t : Bool}
    {st st2 : UnknownState} {e : UnknownEvent} (rest : List UnknownEvent)
    (h : processEvent command collector cm t st e = .ok st2) :
    processEvents command collector cm t st (e :: rest) =
      processEvents command collector cm t st2 rest := by
  conv_lhs => unfold processEvents
  rw [h]

theorem processEvents_ok_valid_false (command collector : Option String) (cm t : Bool)
    (events : List UnknownEvent) :
    ∀ (st st2 : UnknownState),
      processEvents command collector cm t st events = .ok st2 → st.valid = false →
      st2.valid = false := by
  induction events with
  | nil =>
      intro st st2 h hv
      unfold processEvents at h
      simp only [Except.ok.injEq] at h
      rw [← h]; exact hv
  | cons e rest ih =>
      intro st st2 h hv
      unfold processEvents at h
      cases he : processEvent command collector cm t st e with
      | error err => rw [he] at h; exact absurd h (by simp)
      | ok stMid =>
          rw [he] at h
          exact ih stMid st2 h (processEvent_ok_valid_false _ _ _ _ _ _ _ he hv)

/-! ### Claim C1 -/

/-- Claim C1: when a command name is expected, a first unknown argv token
that is option-keyed, or bare but different from the expected command
name, makes `#getArgValues` return `null` (`.ok none`), for every options
configuration and parsed record — in particular none of the per-option
required/empty/coercion checks of lines 277-301 runs for that call. -/
theorem command_mismatch_returns_null
    (reg options : OptionConfigs) (cmd : String) (throwOnInvalid : Bool)
    (parsed : List (String × RawValue)) (e : UnknownEvent) (rest : List UnknownEvent)
    (collector : Option String) (st1 : UnknownState)
    (hcoll : getCollectorArg options = .ok collector)
    (hmism : e.key.isSome = true ∨ (e.key = none ∧ e.arg ≠ cmd))
    (hrest : processEvents (some cmd) collector (collectorMultipleOf options collector)
        throwOnInvalid ⟨false, false, []⟩ rest = .ok st1) :
    getArgValues reg options (some cmd) throwOnInvalid parsed (e :: rest) = .ok none := by
  have hfirst : processEvent (some cmd) collector (collectorMultipleOf options collector)
      throwOnInvalid ⟨true, true, []⟩ e = .ok ⟨false, false, []⟩ := by
    unfold processEvent
    rcases hmism with hk | ⟨hk, ha⟩
    · simp [hk]
    · simp [hk, ha]
  have hall : processEvents (some cmd) collector (collectorMultipleOf options collector)
      throwOnInvalid ⟨true, true, []⟩ (e :: rest) = .ok st1 := by
    unfold processEvents
    rw [hfirst]
    exact hrest
  have hvalid : st1.valid = false :=
    processEvents_ok_valid_false _ _ _ _ rest ⟨false, false, []⟩ st1 hrest rfl
  unfold getArgValues
  rw [hcoll]
  simp only [Option.isSome_some, Bool.true_or, if_true, hall, hvalid]
  simp

/-- Witness for C1 at a concrete input: command `advanced`, argv whose
first unknown token is the bare token `basic`, and a registered required
option `time` that is missing from the parsed record — the call still
returns `null` without a missing-option error. -/
theorem command_mismatch_returns_null_witness :
    getArgValues [("time", some { type := some OptionType.string, required := some true })]
      [("time", some { type := some OptionType.string, required := some true })]
      (some "advanced") false [] [⟨"basic", none⟩] = .ok none :=
  command_mismatch_returns_null
    [("time", some { type := some OptionType.string, required := some true })]
    [("time", some { type := some OptionType.string, required := some true })]
    "advanced" false [] ⟨"basic", none⟩ [] none ⟨false, false, []⟩
    rfl (Or.inr ⟨rfl, by decide⟩) rfl

/-! ### Claim C2 -/

theorem mergeField_right {α : Type} (a b : Option α) (v : α)
    (hd : a = none ∨ b = none) (hb : b = some v) : mergeField a b = some v := by
  rcases hd with ha | hb2
  · rw [ha, hb]; rfl
  · rw [hb2] at hb; exact absurd hb (by simp)

theorem mergeField_both_none {α : Type} (a b : Option α)
    (ha : a = none) (hb : b = none) : mergeField a b = none := by
  rw [ha, hb]; rfl

theorem noOverwrite_merge (c1 c2 : OptionConfig) : NoOverwrite c1 (mergeConfig c1 c2) := by
  unfold NoOverwrite
  refine ⟨?_, ?_, ?_, ?_, ?_, ?_, ?_, ?_, ?_, ?_⟩ <;>
    exact fun v h => by simp [mergeConfig, mergeField, h]

theorem union_merge (c1 c2 : OptionConfig) (h : FieldsDisjoint c1 c2) :
    UnionOfFields c1 c2 (mergeConfig c1 c2) := by
  obtain ⟨d1, d2, d3, d4, d5, d6, d7, d8, d9, d10⟩ := h
  refine ⟨noOverwrite_merge c1 c2,
    ⟨fun v hv => ?_, fun v hv => ?_, fun v hv => ?_, fun v hv => ?_, fun v hv => ?_,
     fun v hv => ?_, fun v hv => ?_, fun v hv => ?_, fun v hv => ?_, fun v hv => ?_⟩,
    fun h1 h2 => ?_, fun h1 h2 => ?_, fun h1 h2 => ?_, fun h1 h2 => ?_, fun h1 h2 => ?_,
    fun h1 h2 => ?_, fun h1 h2 => ?_, fun h1 h2 => ?_, fun h1 h2 => ?_, fun h1 h2 => ?_⟩
  · exact mergeField_right _ _ _ d1 hv
  · exact mergeField_right _ _ _ d2 hv
  · exact mergeField_right _ _ _ d3 hv
  · exact mergeField_right _ _ _ d4 hv
  · exact mergeField_right _ _ _ d5 hv
  · exact mergeField_right _ _ _ d6 hv
  · exact mergeField_right _ _ _ d7 hv
  · exact mergeField_right _ _ _ d8 hv
  · exact mergeField_right _ _ _ d9 hv
  · exact mergeField_right _ _ _ d10 hv
  · exact mergeField_both_none _ _ h1 h2
  · exact mergeField_both_none _ _ h1 h2
  · exact mergeField_both_none _ _ h1 h2
  · exact mergeField_both_none _ _ h1 h2
  · exact mergeField_both_none _ _ h1 h2
  · exact mergeField_both_none _ _ h1 h2
  · exact mergeField_both_none _ _ h1 h2
  · exact mergeField_both_none _ _ h1 h2
  · exact mergeField_both_none _ _ h1 h2
  · exact mergeField_both_none _ _ h1 h2

/-- Claim C2: registering the same option name twice in one context (with
the global lock unset and the name previously unregistered) stores the
field-wise merge; every field set by the first registration keeps its
value (first registration wins per field), and for configs with disjoint
field sets the stored config is exactly the union of both field sets. -/
theorem register_twice_merge_semantics
    (st : GlobalState) (ctxName name : String) (c1 c2 : OptionConfig)
    (st1 st2 : GlobalState)
    (hlock : st.globalLockContext = none)
    (hfresh : lookupConfig (contextRegistry st ctxName) name = none)
    (h1 : registerOption st ctxName name (some c1) = .ok st1)
    (h2 : registerOption st1 ctxName name (some c2) = .ok st2) :
    lookupConfig (contextRegistry st2 ctxName) name = some (some (mergeConfig c1 c2)) ∧
    NoOverwrite c1 (mergeConfig c1 c2) ∧
    (FieldsDisjoint c1 c2 → UnionOfFields c1 c2 (mergeConfig c1 c2)) := by
  have hstore1 : registerOptionStore (contextRegistry st ctxName) name (some c1) =
      setConfig (contextRegistry st ctxName) name (some c1) := by
    unfold registerOptionStore
    rw [hfresh]
  have e1 : registerOption st ctxName name (some c1) =
      .ok { st with contexts := (updateContexts st.contexts ctxName
        (setConfig (contextRegistry st ctxName) name (some c1))) } := by
    unfold registerOption
    rw [hlock, hstore1]
  rw [e1] at h1
  simp only [Except.ok.injEq] at h1
  have hreg1 : contextRegistry st1 ctxName =
      setConfig (contextRegistry st ctxName) name (some c1) := by
    rw [← h1]
    exact contextsRegistry_updateContexts st.contexts ctxName _
  have hlock1 : st1.globalLockContext = none := by
    rw [← h1]
    exact hlock
  have hlook1 : lookupConfig (contextRegistry st1 ctxName) name = some (some c1) := by
    rw [hreg1, lookupConfig_setConfig]
  have hstore2 : registerOptionStore (contextRegistry st1 ctxName) name (some c2) =
      setConfig (contextRegistry st1 ctxName) name (some (mergeConfig c1 c2)) := by
    unfold registerOptionStore
    rw [hlook1]
  have e2 : registerOption st1 ctxName name (some c2) =
      .ok { st1 with contexts := (updateContexts st1.contexts ctxName
        (setConfig (contextRegistry st1 ctxName) name (some (mergeConfig c1 c2)))) } := by
    unfold registerOption
    rw [hlock1, hstore2]
  rw [e2] at h2
  simp only [Except.ok.injEq] at h2
  refine ⟨?_, noOverwrite_merge c1 c2, union_merge c1 c2⟩
  rw [← h2]
  show lookupConfig (contextsRegistry (updateContexts st1.contexts ctxName
    (setConfig (contextRegistry st1 ctxName) name (some (mergeConfig c1 c2)))) ctxName) name =
    some (some (mergeConfig c1 c2))
  rw [contextsRegistry_updateContexts]
  exact lookupConfig_setConfig _ _ _

/-- Witness for C2 at a concrete input: context `A`, fresh name `x`,
first config setting only `description`, second setting only `required`;
the stored config is their union and keeps the first description. -/
theorem register_twice_merge_semantics_witness :
    lookupConfig
      (contextRegistry
        ⟨[⟨"A", [("x", some { description := some "d1", required := some true })]⟩], none, []⟩
        "A") "x" =
      some (some (mergeConfig { description := some "d1" } { required := some true })) ∧
    NoOverwrite { description := some "d1" }
      (mergeConfig { description := some "d1" } { required := some true }) ∧
    (FieldsDisjoint { description := some "d1" } { required := some true } →
      UnionOfFields { description := some "d1" } { required := some true }
        (mergeConfig { description := some "d1" } { required := some true })) :=
  register_twice_merge_semantics
    ⟨[⟨"A", []⟩], none, []⟩ "A" "x" { description := some "d1" } { required := some true }
    ⟨[⟨"A", [("x", some { description := some "d1" })]⟩], none, []⟩
    ⟨[⟨"A", [("x", some { description := some "d1", required := some true })]⟩], none, []⟩
    rfl rfl rfl rfl

/-! ### Claim C3 -/

theorem registerBatch_unlocked (opts : OptionConfigs) :
    ∀ (st : GlobalState) (ctxName : String), st.globalLockContext = none →
      ∃ st2, registerBatch st ctxName opts = .ok st2 ∧ st2.globalLockContext = none := by
  induction opts with
  | nil => exact fun st ctxName h => ⟨st, rfl, h⟩
  | cons p rest ih =>
      obtain ⟨name, config⟩ := p
      intro st ctxName h
      have e1 : registerOption st ctxName name config =
          .ok { st with contexts := (updateContexts st.contexts ctxName
            (registerOptionStore (contextRegistry st ctxName) name config)) } := by
        unfold registerOption
        rw [h]
      obtain ⟨st2, hrb, hl2⟩ := ih
        { st with contexts := (updateContexts st.contexts ctxName
          (registerOptionStore (contextRegistry st ctxName) name config)) } ctxName h
      refine ⟨st2, ?_, hl2⟩
      unfold registerBatch
      rw [e1]
      exact hrb

/-- Claim C3: with no pre-existing lock, a context A declaring an options
batch with `allowOtherOptions = false` succeeds for its own batch and sets
the global lock to A; afterwards every `#registerOption` call from a
different context B whose config does not set `overload` is the fatal
"locked" configuration error naming A. -/
theorem options_lock_blocks_later_registration
    (st : GlobalState) (ctxA : String) (opts : OptionConfigs)
    (hlock : st.globalLockContext = none) :
    ∃ stA, optionsDeclare st ctxA opts false = .ok stA ∧
      stA.globalLockContext = some ctxA ∧
      ∀ (ctxB name : String) (config : OptionConfig),
        ctxB ≠ ctxA → config.overload ≠ some true →
        registerOption stA ctxB name (some config) = .error (.optionsLocked ctxB ctxA) := by
  obtain ⟨stM, hrb, hlM⟩ := registerBatch_unlocked opts st ctxA hlock
  refine ⟨{ stM with globalLockContext := some ctxA }, ?_, rfl, ?_⟩
  · unfold optionsDeclare
    rw [hrb]
    simp
  · intro ctxB name config _ _
    rfl

/-- Witness for C3 at a concrete input: context A declares `{x:{}}` with
`allowOtherOptions=false`; the declaration succeeds and the lock is A. -/
theorem options_lock_blocks_later_registration_witness :
    ∃ stA, optionsDeclare ⟨[⟨"A", []⟩], none, []⟩ "A" [("x", some {})] false = .ok stA ∧
      stA.globalLockContext = some "A" ∧
      ∀ (ctxB name : String) (config : OptionConfig),
        ctxB ≠ "A" → config.overload ≠ some true →
        registerOption stA ctxB name (some config) = .error (.optionsLocked ctxB "A") :=
  options_lock_blocks_later_registration ⟨[⟨"A", []⟩], none, []⟩ "A" [("x", some {})] rfl

/-! ### Claim C4 -/

/-- Claim C4: number coercion maps `"42.5"` to the number `42.5`; a string
containing a character outside digits and dots (such as `"abc"`) is a
fatal validation error; `undefined` passes through unchanged with no
error; and every string matching the pattern `one or more digits or dots`
coerces to its `parseFloat` value. -/
theorem number_coercion_laws (reg : OptionConfigs) (parsedKeys : List String) (name : String) :
    validateNumber (.str "42.5") parsedKeys name reg = .ok (some (.val (85/2))) ∧
    validateNumber (.str "abc") parsedKeys name reg =
      .error (.notANumber (formatArgName (getUsedCommandLineArgAlias reg parsedKeys name))) ∧
    validateNumber .undefined parsedKeys name reg = .ok none ∧
    (∀ s : String, (∃ c ∈ s.data, isDigitOrDot c = false) →
      validateNumber (.str s) parsedKeys name reg =
        .error (.notANumber (formatArgName (getUsedCommandLineArgAlias reg parsedKeys name)))) ∧
    (∀ s : String, matchesNumberPattern s = true →
      validateNumber (.str s) parsedKeys name reg = .ok (some (parseFloatDigitsDots s))) := by
  have hpat : ∀ s : String, (∃ c ∈ s.data, isDigitOrDot c = false) →
      matchesNumberPattern s = false := by
    intro s ⟨c, hc, hnd⟩
    have hall : s.data.all isDigitOrDot = false :=
      List.all_eq_false.mpr ⟨c, hc, by simp [hnd]⟩
    simp [matchesNumberPattern, hall]
  refine ⟨?_, ?_, rfl, ?_, ?_⟩
  · have h1 : matchesNumberPattern (rawToStringJS (.str "42.5")) = true := by decide
    have hv : parseFloatDigitsDots (rawToStringJS (.str "42.5")) =
        .val ((digitsVal ['4', '2'] : ℚ) + (digitsVal ['5'] : ℚ) / (10 : ℚ) ^ 1) := rfl
    have d1 : digitsVal ['4', '2'] = 42 := by decide
    have d2 : digitsVal ['5'] = 5 := by decide
    simp [validateNumber, h1, hv, d1, d2]
    norm_num
  · have h1 : matchesNumberPattern (rawToStringJS (.str "abc")) = false := by decide
    simp [validateNumber, h1]
  · intro s hs
    have h1 : matchesNumberPattern s = false := hpat s hs
    simp [validateNumber, rawToStringJS, h1]
  · intro s hs
    simp [validateNumber, rawToStringJS, hs]

/-- Witness for C4 at concrete inputs, discharging the pattern
hypotheses at `"9x"` (a character outside digits/dots) and `"7.25"`
(matches the pattern). -/
theorem number_coercion_laws_witness :
    validateNumber (.str "42.5") ["_"] "speed" [] = .ok (some (.val (85/2))) ∧
    validateNumber (.str "9x") ["_"] "speed" [] =
      .error (.notANumber (formatArgName (getUsedCommandLineArgAlias [] ["_"] "speed"))) ∧
    validateNumber (.str "7.25") ["_"] "speed" [] = .ok (some (parseFloatDigitsDots "7.25")) :=
  ⟨(number_coercion_laws [] ["_"] "speed").1,
   (number_coercion_laws [] ["_"] "speed").2.2.2.1 "9x" ⟨'x', by decide, by decide⟩,
   (number_coercion_laws [] ["_"] "speed").2.2.2.2 "7.25" (by decide)⟩

/-! ### Claim C5 -/

/-- Claim C5 is a code bug: the required/empty checks of `#getArgValues`
(lines 281-290) consult no help-mode flag at all (neither `showHelp` nor
`generatingStaticHelp` occurs in the function), so they are NOT suppressed
while collecting help metadata.  Concretely, with the README `time` option
(`required:true`) declared and absent from the parsed record — exactly the
situation of a `--help` or `--generate-help` run — value resolution is the
fatal missing-option error instead of proceeding. -/
theorem required_check_fires_regardless_of_help_mode :
    getArgValues timeReg timeOptions none false [] [] =
      .error (.missingOption ["--time"]) := by decide

/-! ### Claim C6 -/

theorem processEvents_second_bare_fatal (c : String) (t : Bool) (events : List UnknownEvent) :
    ∀ st : UnknownState, (∀ e ∈ events, e.key = none) →
      ((st.collected ≠ [] ∧ events ≠ []) ∨ 2 ≤ events.length) →
      processEvents none (some c) false t st events =
        .error (.tooManyCollected (formatArgName c)) := by
  induction events with
  | nil =>
      intro st _ hcase
      rcases hcase with ⟨_, hne⟩ | hlen
      · exact absurd rfl hne
      · simp at hlen
  | cons e rest ih =>
      intro st hk hcase
      have hke : e.key = none := hk e (List.mem_cons_self e rest)
      by_cases hc : st.collected.isEmpty
      · have hrest : rest ≠ [] := by
          rcases hcase with ⟨hne, _⟩ | hlen
          · exact absurd (List.isEmpty_iff.mp hc) hne
          · simp only [List.length_cons] at hlen
            intro hr
            rw [hr] at hlen
            simp at hlen
        have step : processEvent none (some c) false t st e =
            .ok { st with isFirst := false, collected := st.collected ++ [e.arg] } := by
          unfold processEvent processEventCommon
          simp [hke, hc]
        unfold processEvents
        rw [step]
        exact ih { st with isFirst := false, collected := st.collected ++ [e.arg] }
          (fun e2 he2 => hk e2 (List.mem_cons_of_mem e he2))
          (Or.inl ⟨by simp, hrest⟩)
      · have step : processEvent none (some c) false t st e =
            .error (.tooManyCollected (formatArgName c)) := by
          unfold processEvent processEventCommon
          simp [hke, hc]
        unfold processEvents
        rw [step]

theorem processEvents_collect_multiple (c : String) (events : List UnknownEvent) :
    ∀ st : UnknownState, ∃ b : Bool,
      processEvents none (some c) true false st events =
        .ok ⟨b, st.valid, st.collected ++ bareArgs events⟩ := by
  induction events with
  | nil =>
      intro st
      refine ⟨st.isFirst, ?_⟩
      simp [processEvents, bareArgs]
  | cons e rest ih =>
      intro st
      cases hke : e.key with
      | none =>
          obtain ⟨b, hb⟩ := ih { st with isFirst := false, collected := st.collected ++ [e.arg] }
          refine ⟨b, ?_⟩
          have step : processEvent none (some c) true false st e =
              .ok { st with isFirst := false, collected := st.collected ++ [e.arg] } := by
            unfold processEvent processEventCommon
            simp [hke]
          rw [processEvents_cons_ok rest step, hb]
          simp [bareArgs, hke]
      | some k =>
          obtain ⟨b, hb⟩ := ih { st with isFirst := false }
          refine ⟨b, ?_⟩
          have step : processEvent none (some c) true false st e =
              .ok { st with isFirst := false } := by
            unfold processEvent processEventCommon
            simp [hke]
          rw [processEvents_cons_ok rest step, hb]
          simp [bareArgs, hke]

/-- Claim C6: with exactly one option flagged `collectNotPrefixedArgs`:
if it is not `multiple` and two or more bare unknown tokens occur, value
resolution is the fatal too-many-collected-arguments error; if it is
`multiple`, every bare unknown token is appended — in argv order — to the
option's array value. -/
theorem collect_not_prefixed_args_behavior :
    (∀ (reg options : OptionConfigs) (c : String) (t : Bool)
       (parsed : List (String × RawValue)) (events : List UnknownEvent),
      getCollectorArg options = .ok (some c) →
      collectorMultipleOf options (some c) = false →
      (∀ e ∈ events, e.key = none) → 2 ≤ events.length →
      getArgValues reg options none t parsed events =
        .error (.tooManyCollected (formatArgName c))) ∧
    (∀ (reg : OptionConfigs) (c : String) (cfg : OptionConfig)
       (parsed : List (String × RawValue)) (xs : List String) (events : List UnknownEvent),
      cfg.collectNotPrefixedArgs = some true →
      cfg.multiple = some true →
      cfg.required.getD false = false →
      ¬(cfg.type = some OptionType.string ∧ cfg.allowEmptyString = some false) →
      cfg.type ≠ some OptionType.number →
      cfg.type ≠ some OptionType.URL →
      lookupRaw parsed c = some (.arr xs) →
      getArgValues reg [(c, some cfg)] none false parsed events =
        .ok (some [(c, .strList (xs ++ bareArgs events))])) := by
  constructor
  · intro reg options c t parsed events hcoll hmult hbare hlen
    have hproc : processEvents none (some c) (collectorMultipleOf options (some c)) t
        ⟨true, true, []⟩ events = .error (.tooManyCollected (formatArgName c)) := by
      rw [hmult]
      exact processEvents_second_bare_fatal c t events ⟨true, true, []⟩ hbare (Or.inr hlen)
    unfold getArgValues
    rw [hcoll]
    simp only [Option.isSome_some, Bool.or_true, if_true, hproc]
  · intro reg c cfg parsed xs events hflag hmult hreq htype hnum hurl hx
    have hcoll : getCollectorArg [(c, some cfg)] = .ok (some c) := by
      simp [getCollectorArg, getCollectorArgAux, hflag]
    have hcm : collectorMultipleOf [(c, some cfg)] (some c) = true := by
      simp [collectorMultipleOf, lookupConfig, hmult]
    obtain ⟨b, hproc⟩ := processEvents_collect_multiple c events ⟨true, true, []⟩
    have hproc2 : processEvents none (some c) true false ⟨true, true, []⟩ events =
        .ok ⟨b, true, bareArgs events⟩ := by
      simpa using hproc
    have hmerge : mergeCollected parsed (some c) (bareArgs events) =
        setRaw parsed c (.arr (xs ++ bareArgs events)) := by
      simp only [mergeCollected]
      rw [hx]
    have hval : lookupRaw (setRaw parsed c (.arr (xs ++ bareArgs events))) c =
        some (.arr (xs ++ bareArgs events)) := lookupRaw_setRaw _ _ _
    have hco : coerceOption reg (setRaw parsed c (.arr (xs ++ bareArgs events))) c (some cfg) =
        .ok (.strList (xs ++ bareArgs events)) := by
      unfold coerceOption
      rw [hval]
      simp only [Option.getD_some, Option.some_bind]
      rw [hreq]
      simp only [if_false, Bool.false_eq_true]
      rw [if_neg htype, if_neg (by simpa using hnum), if_neg (by simpa using hurl)]
      rfl
    unfold getArgValues
    rw [hcoll]
    simp only [hcm, Option.isSome_some, Option.isSome_none, Bool.or_true, Bool.or_false,
      Bool.false_or, if_true, hproc2, Bool.not_true, Bool.false_eq_true, if_false, hmerge]
    unfold coerceAll
    rw [hco]
    rfl

/-- Witness for C6 at concrete inputs: a single collector option `files`;
with `multiple` unset, the two bare tokens `a b` are a fatal
too-many-collected error; with `multiple:true`, both are appended to the
array value in argv order. -/
theorem collect_not_prefixed_args_behavior_witness :
    getArgValues [] [("files", some { collectNotPrefixedArgs := some true })] none false []
      [⟨"a", none⟩, ⟨"b", none⟩] = .error (.tooManyCollected "--files") ∧
    getArgValues []
      [("files", some { collectNotPrefixedArgs := some true, multiple := some true })]
      none false [("files", .arr [])]
      [⟨"a", none⟩, ⟨"b", none⟩] = .ok (some [("files", .strList ["a", "b"])]) := by
  constructor
  · exact collect_not_prefixed_args_behavior.1 []
      [("files", some { collectNotPrefixedArgs := some true })] "files" false []
      [⟨"a", none⟩, ⟨"b", none⟩] rfl rfl (by decide) (by decide)
  · exact collect_not_prefixed_args_behavior.2 [] "files"
      { collectNotPrefixedArgs := some true, multiple := some true } [("files", .arr [])]
      [] [⟨"a", none⟩, ⟨"b", none⟩] rfl rfl rfl (by decide) (by decide) (by decide) rfl

/-! ### Claim C7 -/

theorem registerOption_unlocked_eq (st : GlobalState) (ctxName name : String)
    (config : Option OptionConfig) (hlock : st.globalLockContext = none) :
    registerOption st ctxName name config =
      .ok { st with contexts := (updateContexts st.contexts ctxName
        (registerOptionStore (contextRegistry st ctxName) name config)) } := by
  unfold registerOption
  rw [hlock]

theorem registerBatch_singleton (st : GlobalState) (ctx name : String)
    (config : Option OptionConfig) (hlock : st.globalLockContext = none) :
    registerBatch st ctx [(name, config)] =
      .ok { st with contexts := (updateContexts st.contexts ctx
        (registerOptionStore (contextRegistry st ctx) name config)) } := by
  unfold registerBatch
  rw [registerOption_unlocked_eq st ctx name config hlock]
  rfl

theorem commandDeclare_singleton_open (st : GlobalState) (ctx cmd name : String)
    (config : Option OptionConfig) (hcmd : lookupLocked st.lockedCommands cmd = none)
    (hlock : st.globalLockContext = none) :
    commandDeclare st ctx cmd [(name, config)] true =
      .ok { st with contexts := (updateContexts st.contexts ctx
        (registerOptionStore (contextRegistry st ctx) name config)) } := by
  unfold commandDeclare
  rw [hcmd, registerBatch_singleton st ctx name config hlock]
  rfl

/-- Claim C7 counterexample: registering the option name `x` under
sub-command `alpha` and then under sub-command `beta` (same context, both
commands unlocked) does NOT produce two registry entries — it produces the
single entry `x` whose config merges the fields of both registrations. -/
theorem subcommand_key_counterexample :
    (commandDeclare ⟨[⟨"A", []⟩], none, []⟩ "A" "alpha"
        [("x", some { description := some "d1" })] true).bind
      (fun st => commandDeclare st "A" "beta" [("x", some { required := some true })] true) =
      .ok ⟨[⟨"A", [("x", some { description := some "d1", required := some true })]⟩],
        none, []⟩ ∧
    (contextRegistry
      ⟨[⟨"A", [("x", some { description := some "d1", required := some true })]⟩], none, []⟩
      "A").length = 1 := by
  constructor
  · rfl
  · rfl

/-- Claim C7 amended: within a context, option registrations are keyed by
the option name alone — the sub-command name is not part of the key.  The
registry update performed by `command` is independent of the (unlocked)
command name, and registering the same option name under two distinct
sub-commands merges both configs into one registry entry instead of
creating two. -/
theorem register_key_ignores_subcommand
    (st : GlobalState) (ctx cmdA cmdB : String) (opts : OptionConfigs)
    (hA : lookupLocked st.lockedCommands cmdA = none)
    (hB : lookupLocked st.lockedCommands cmdB = none) :
    commandDeclare st ctx cmdA opts true = commandDeclare st ctx cmdB opts true ∧
    (∀ (name : String) (c1 c2 : OptionConfig) (st2 : GlobalState),
      st.globalLockContext = none →
      lookupConfig (contextRegistry st ctx) name = none →
      (commandDeclare st ctx cmdA [(name, some c1)] true).bind
        (fun s => commandDeclare s ctx cmdB [(name, some c2)] true) = .ok st2 →
      lookupConfig (contextRegistry st2 ctx) name = some (some (mergeConfig c1 c2))) := by
  constructor
  · unfold commandDeclare
    rw [hA, hB]
    rfl
  · intro name c1 c2 st2 hlock hfresh hrun
    have hstore1 : registerOptionStore (contextRegistry st ctx) name (some c1) =
        setConfig (contextRegistry st ctx) name (some c1) := by
      unfold registerOptionStore
      rw [hfresh]
    rw [commandDeclare_singleton_open st ctx cmdA name (some c1) hA hlock] at hrun
    simp only [Except.bind] at hrun
    rw [hstore1] at hrun
    set st1 : GlobalState := { st with contexts := (updateContexts st.contexts ctx
      (setConfig (contextRegistry st ctx) name (some c1))) } with hst1
    have hreg1 : contextRegistry st1 ctx =
        setConfig (contextRegistry st ctx) name (some c1) := by
      rw [hst1]
      show contextsRegistry (updateContexts st.contexts ctx
        (setConfig (contextRegistry st ctx) name (some c1))) ctx = _
      rw [contextsRegistry_updateContexts]
    have hlook1 : lookupConfig (contextRegistry st1 ctx) name = some (some c1) := by
      rw [hreg1, lookupConfig_setConfig]
    have hstore2 : registerOptionStore (contextRegistry st1 ctx) name (some c2) =
        setConfig (contextRegistry st1 ctx) name (some (mergeConfig c1 c2)) := by
      unfold registerOptionStore
      rw [hlook1]
    have hB1 : lookupLocked st1.lockedCommands cmdB = none := hB
    have hlock1 : st1.globalLockContext = none := hlock
    rw [commandDeclare_singleton_open st1 ctx cmdB name (some c2) hB1 hlock1] at hrun
    simp only [Except.ok.injEq] at hrun
    rw [← hrun]
    show lookupConfig (contextsRegistry (updateContexts st1.contexts ctx
      (registerOptionStore (contextRegistry st1 ctx) name (some c2))) ctx) name = _
    rw [contextsRegistry_updateContexts, hstore2, lookupConfig_setConfig]

/-- Witness for C7 at a concrete input: a fresh context A, commands
`alpha` and `beta`, same option name `x` with different field sets; the
registry outcome is command-independent and the entry is the merge. -/
theorem register_key_ignores_subcommand_witness :
    (commandDeclare ⟨[⟨"A", []⟩], none, []⟩ "A" "alpha"
        [("x", some { description := some "d1" })] true =
      commandDeclare ⟨[⟨"A", []⟩], none, []⟩ "A" "beta"
        [("x", some { description := some "d1" })] true) ∧
    lookupConfig (contextRegistry
        ⟨[⟨"A", [("x", some { description := some "d1", required := some true })]⟩], none, []⟩
        "A") "x" =
      some (some (mergeConfig { description := some "d1" } { required := some true })) := by
  constructor
  · exact (register_key_ignores_subcommand ⟨[⟨"A", []⟩], none, []⟩ "A" "alpha" "beta"
      [("x", some { description := some "d1" })] rfl rfl).1
  · exact (register_key_ignores_subcommand ⟨[⟨"A", []⟩], none, []⟩ "A" "alpha" "beta"
      [("x", some { description := some "d1" })] rfl rfl).2
      "x" { description := some "d1" } { required := some true }
      ⟨[⟨"A", [("x", some { description := some "d1", required := some true })]⟩], none, []⟩
      rfl rfl rfl

/-! ### Claim C8 -/

/-- Claim C8 counterexample: parsing a help-file section whose entry line
precedes any Required/Optional marker registers the entry with
`required = some false` — not with `required = true` as the claim states
(the loop of `parseHelpMarkdownFile` starts from `let required = false`,
line 527). -/
theorem help_parse_default_required_counterexample :
    parseSection ⟨[⟨"Ctx", []⟩], none, []⟩ "Ctx" ["* \x60--foo\x60 desc"] =
      .ok ⟨[⟨"Ctx", [("foo", some (entryConfig false ⟨"foo", [], none, "desc"⟩))]⟩],
        none, []⟩ ∧
    (entryConfig false ⟨"foo", [], none, "desc"⟩).required = some false := by
  constructor
  · rfl
  · rfl

/-- Claim C8 amended: `required=false` is the initial state of the
required-flag (not `required=true`): an entry encountered before any
marker line is registered with `required=false`; entries after a
`### Required` marker are registered with `required=true`; entries after
an `### Optional` marker (with or without an earlier Required marker) are
registered with `required=false`. -/
theorem help_parse_required_flag_state
    (st : GlobalState) (ctxName part : String) (e : HelpEntry)
    (hline : parseHelpLine part = some e)
    (hm1 : strStartsWith part "### Required" = false)
    (hm2 : strStartsWith part "### Optional" = false)
    (hlock : st.globalLockContext = none)
    (hfresh : lookupConfig (contextRegistry st ctxName) e.name = none) :
    parseSection st ctxName [part] =
      .ok { st with contexts := (updateContexts st.contexts ctxName
        (setConfig (contextRegistry st ctxName) e.name (some (entryConfig false e)))) } ∧
    parseSectionParts ctxName st false ["### Required", part] =
      .ok { st with contexts := (updateContexts st.contexts ctxName
        (setConfig (contextRegistry st ctxName) e.name (some (entryConfig true e)))) } ∧
    parseSectionParts ctxName st false ["### Optional", part] =
      .ok { st with contexts := (updateContexts st.contexts ctxName
        (setConfig (contextRegistry st ctxName) e.name (some (entryConfig false e)))) } ∧
    parseSectionParts ctxName st false ["### Required", "### Optional", part] =
      .ok { st with contexts := (updateContexts st.contexts ctxName
        (setConfig (contextRegistry st ctxName) e.name (some (entryConfig false e)))) } := by
  have hreg : ∀ b : Bool, registerOption st ctxName e.name (some (entryConfig b e)) =
      .ok { st with contexts := (updateContexts st.contexts ctxName
        (setConfig (contextRegistry st ctxName) e.name (some (entryConfig b e)))) } := by
    intro b
    rw [registerOption_unlocked_eq st ctxName e.name (some (entryConfig b e)) hlock]
    unfold registerOptionStore
    rw [hfresh]
  have hRR : strStartsWith "### Required" "### Required" = true := by decide
  have hOO : strStartsWith "### Optional" "### Optional" = true := by decide
  have hOR : strStartsWith "### Optional" "### Required" = false := by decide
  refine ⟨?_, ?_, ?_, ?_⟩
  · simp only [parseSection, parseSectionParts, hm1, hm2, Bool.false_eq_true, if_false,
      hline, hreg false]
  · simp only [parseSectionParts, hRR, if_true, hm1, hm2, Bool.false_eq_true, if_false,
      hline, hreg true]
  · simp only [parseSectionParts, hOR, hOO, if_true, hm1, hm2, Bool.false_eq_true, if_false,
      hline, hreg false]
  · simp only [parseSectionParts, hRR, hOR, hOO, if_true, hm1, hm2, Bool.false_eq_true,
      if_false, hline, hreg false]

/-- Witness for C8 at a concrete input: context `Ctx`, entry line
`* \x60--foo\x60 desc`: registered optional by default, required only
after a Required marker, optional again after an Optional marker. -/
theorem help_parse_required_flag_state_witness :
    parseSection ⟨[⟨"Ctx", []⟩], none, []⟩ "Ctx" ["* \x60--foo\x60 desc"] =
      .ok ⟨[⟨"Ctx", [("foo", some (entryConfig false ⟨"foo", [], none, "desc"⟩))]⟩],
        none, []⟩ ∧
    parseSectionParts "Ctx" ⟨[⟨"Ctx", []⟩], none, []⟩ false
        ["### Required", "* \x60--foo\x60 desc"] =
      .ok ⟨[⟨"Ctx", [("foo", some (entryConfig true ⟨"foo", [], none, "desc"⟩))]⟩],
        none, []⟩ ∧
    parseSectionParts "Ctx" ⟨[⟨"Ctx", []⟩], none, []⟩ false
        ["### Optional", "* \x60--foo\x60 desc"] =
      .ok ⟨[⟨"Ctx", [("foo", some (entryConfig false ⟨"foo", [], none, "desc"⟩))]⟩],
        none, []⟩ ∧
    parseSectionParts "Ctx" ⟨[⟨"Ctx", []⟩], none, []⟩ false
        ["### Required", "### Optional", "* \x60--foo\x60 desc"] =
      .ok ⟨[⟨"Ctx", [("foo", some (entryConfig false ⟨"foo", [], none, "desc"⟩))]⟩],
        none, []⟩ :=
  help_parse_required_flag_state ⟨[⟨"Ctx", []⟩], none, []⟩ "Ctx" "* \x60--foo\x60 desc"
    ⟨"foo", [], none, "desc"⟩ (by decide) (by decide) (by decide) rfl rfl

/-! ### Claim C9 -/

theorem firstKeyAmong_some_mem (keys candidates : List String) (k : String) :
    firstKeyAmong keys candidates = some k →
      k ∈ keys ∧ candidates.contains k = true := by
  induction keys with
  | nil =>
      intro h
      exact absurd h (by simp [firstKeyAmong])
  | cons x rest ih =>
      intro h
      unfold firstKeyAmong at h
      by_cases hc : candidates.contains x
      · rw [if_pos hc] at h
        simp only [Option.some.injEq] at h
        subst h
        exact ⟨List.mem_cons_self x rest, hc⟩
      · rw [if_neg hc] at h
        obtain ⟨hm, hk⟩ := ih h
        exact ⟨List.mem_cons_of_mem x hm, hk⟩

/-- Claim C9 counterexample: option `speed` with declared aliases `["s"]`
and a parsed record containing no candidate key — the computed display
form is the first declared alias `s`, NOT the primary declared name
`speed` the claim requires as the fallback. -/
theorem alias_fallback_counterexample :
    getUsedCommandLineArgAlias [("speed", some { aliases := some ["s"] })] ["_"] "speed" =
      "s" ∧ ("s" : String) ≠ "speed" := by
  constructor
  · rfl
  · decide

/-- Claim C9 amended: a fatal numeric (or empty-string) message names the
option by the first parsed key among the option's declared forms (the
alias form present on the command line) when one exists; when none can be
identified it falls back to `nameCandidates[0]` — the first declared
alias when the option has aliases, and the primary declared name only
when it has no aliases. -/
theorem used_alias_reporting
    (reg : OptionConfigs) (parsedKeys : List String) (name : String) :
    (∀ k, firstKeyAmong parsedKeys (getAliases reg name false) = some k →
      getUsedCommandLineArgAlias reg parsedKeys name = k ∧ k ∈ parsedKeys ∧
      (getAliases reg name false).contains k = true) ∧
    (firstKeyAmong parsedKeys (getAliases reg name false) = none →
      (configAliases reg name = [] →
        getUsedCommandLineArgAlias reg parsedKeys name = name) ∧
      (∀ a rest, configAliases reg name = a :: rest →
        getUsedCommandLineArgAlias reg parsedKeys name = a)) ∧
    (∀ s : String, matchesNumberPattern s = false →
      validateNumber (.str s) parsedKeys name reg =
        .error (.notANumber (formatArgName (getUsedCommandLineArgAlias reg parsedKeys name)))) := by
  refine ⟨?_, ?_, ?_⟩
  · intro k hk
    refine ⟨?_, (firstKeyAmong_some_mem _ _ _ hk).1, (firstKeyAmong_some_mem _ _ _ hk).2⟩
    show (match firstKeyAmong parsedKeys (getAliases reg name false) with
      | some k => k
      | none => (getAliases reg name false).headI) = k
    rw [hk]
  · intro hnone
    constructor
    · intro hal
      show (match firstKeyAmong parsedKeys (getAliases reg name false) with
        | some k => k
        | none => (getAliases reg name false).headI) = name
      rw [hnone]
      simp [getAliases, hal]
    · intro a rest hal
      show (match firstKeyAmong parsedKeys (getAliases reg name false) with
        | some k => k
        | none => (getAliases reg name false).headI) = a
      rw [hnone]
      simp [getAliases, hal]
  · intro s hs
    simp [validateNumber, rawToStringJS, hs]

/-- Witness for C9 at concrete inputs: a supplied alias key is reported
as typed; with no candidate among the parsed keys, an aliased option
falls back to its first alias and an alias-free option to its name;
a numeric error carries that computed form. -/
theorem used_alias_reporting_witness :
    (getUsedCommandLineArgAlias [("speed", some { aliases := some ["s"] })] ["_", "s"]
        "speed" = "s" ∧ "s" ∈ ["_", "s"] ∧
      (getAliases [("speed", some { aliases := some ["s"] })] "speed" false).contains "s" =
        true) ∧
    getUsedCommandLineArgAlias [("speed", some {})] ["_"] "speed" = "speed" ∧
    getUsedCommandLineArgAlias [("speed", some { aliases := some ["s", "sp"] })] ["_"]
      "speed" = "s" ∧
    validateNumber (.str "abc") ["_"] "speed" [("speed", some { aliases := some ["s"] })] =
      .error (.notANumber (formatArgName (getUsedCommandLineArgAlias
        [("speed", some { aliases := some ["s"] })] ["_"] "speed"))) :=
  ⟨(used_alias_reporting [("speed", some { aliases := some ["s"] })] ["_", "s"] "speed").1
      "s" rfl,
   ((used_alias_reporting [("speed", some {})] ["_"] "speed").2.1 rfl).1 rfl,
   ((used_alias_reporting [("speed", some { aliases := some ["s", "sp"] })] ["_"]
      "speed").2.1 rfl).2 "s" ["sp"] rfl,
   (used_alias_reporting [("speed", some { aliases := some ["s"] })] ["_"] "speed").2.2
      "abc" (by decide)⟩

/-! ### Claim C10 -/

/-- Claim C10: a non-empty raw string consisting only of dot characters
(no digit, e.g. `"..."`) is ACCEPTED by the `^[\d.]+$` pattern of
`#validateNumber` — no fatal validation error is reported — and the call
returns the `parseFloat` of the string, which is `NaN` (not a number
value), instead of rejecting the input. -/
theorem dots_only_string_accepted
    (reg : OptionConfigs) (parsedKeys : List String) (name : String) (s : String)
    (hne : s.data ≠ [])
    (hdots : ∀ c ∈ s.data, c = '.') :
    matchesNumberPattern s = true ∧
    validateNumber (.str s) parsedKeys name reg = .ok (some (parseFloatDigitsDots s)) ∧
    parseFloatDigitsDots s = .nan := by
  have hmatch : matchesNumberPattern s = true := by
    have hall : s.data.all isDigitOrDot = true := by
      rw [List.all_eq_true]
      intro c hc
      rw [hdots c hc]
      decide
    simp [matchesNumberPattern, hne, hall]
  refine ⟨hmatch, ?_, ?_⟩
  · simp [validateNumber, rawToStringJS, hmatch]
  · cases hd : s.data with
    | nil => exact absurd hd hne
    | cons c tail =>
        have hc : c = '.' := hdots c (hd ▸ List.mem_cons_self c tail)
        have hdot : Char.isDigit '.' = false := by decide
        have htail : tail.takeWhile Char.isDigit = [] := by
          cases tail with
          | nil => rfl
          | cons d t2 =>
              have hdc : d = '.' :=
                hdots d (by rw [hd]; exact List.mem_cons_of_mem c (List.mem_cons_self d t2))
              rw [List.takeWhile_cons, hdc]
              simp [hdot]
        subst hc
        unfold parseFloatDigitsDots
        rw [hd]
        simp [List.takeWhile_cons, hdot, htail]

/-- Witness for C10 at the concrete input `"..."`. -/
theorem dots_only_string_accepted_witness :
    matchesNumberPattern "..." = true ∧
    validateNumber (.str "...") ["_"] "speed" [] =
      .ok (some (parseFloatDigitsDots "...")) ∧
    parseFloatDigitsDots "..." = .nan :=
  dots_only_string_accepted [] ["_"] "speed" "..." (by decide) (by decide)

end CLArgs
